import Mathlib

/-!
Verification of the Deep-Research-Agent extraction and aggregation core.

The repository's core is the result-aggregation and extraction pipeline of
`agents/search_agent.py` and `agents/report_agent.py`, plus the per-step
driver loop of `interfaces/cli.py`.  Python's dynamically typed payloads
are embedded as the inductive `PyVal`; the handful of Python primitives
the code exercises (`dict.get`, `in`, subscripting, iteration, truthiness,
`==`, `str()`, `str.startswith`, `str.strip`) are modelled explicitly, and
a raised exception is an `Except.error` carrying a `PyErr`.
-/

namespace DRA

/-- A Python value, as far as the pipeline's payloads need: `None`,
booleans, integers, strings, lists and string-keyed dicts (kept as
association lists; every dict the code builds or receives from JSON has
distinct keys in a fixed order). -/
inductive PyVal where
  | none : PyVal
  | bool : Bool → PyVal
  | int : Int → PyVal
  | str : String → PyVal
  | list : List PyVal → PyVal
  | dict : List (String × PyVal) → PyVal

/-- A raised Python exception, reduced to its message (the code only ever
prints or string-embeds caught exceptions). -/
structure PyErr where
  msg : String
deriving DecidableEq

/-- First-match association-list lookup, the model of a Python dict read. -/
def lookup? (d : List (String × PyVal)) (k : String) : Option PyVal :=
  (d.find? (fun kv => kv.1 == k)).map (fun kv => kv.2)

mutual

/-- Python `==` on payload values.  Structural, except that Python compares
`bool` and `int` numerically (`True == 1`); Python also compares dicts
without regard to key order, but every pair of dicts the pipeline compares
was built with the same literal key order, where the structural reading is
exact. -/
def pyEq : PyVal → PyVal → Bool
  | .none, .none => true
  | .bool a, .bool b => a == b
  | .bool a, .int b => (if a then (1 : Int) else 0) == b
  | .int a, .bool b => a == (if b then (1 : Int) else 0)
  | .int a, .int b => a == b
  | .str a, .str b => a == b
  | .list xs, .list ys => pyEqList xs ys
  | .dict xs, .dict ys => pyEqKVs xs ys
  | _, _ => false

def pyEqList : List PyVal → List PyVal → Bool
  | [], [] => true
  | x :: xs, y :: ys => pyEq x y && pyEqList xs ys
  | _, _ => false

def pyEqKVs : List (String × PyVal) → List (String × PyVal) → Bool
  | [], [] => true
  | (k, v) :: xs, (k2, v2) :: ys => k == k2 && pyEq v v2 && pyEqKVs xs ys
  | _, _ => false

end

/-- Python `v == "s"` for a string literal `s`: true exactly when `v` is an
equal string (Python `==` between a string and any non-string payload
value is `False`, without faulting).  The extractors only ever compare
payload values against string literals, so this is exact for them;
`pyEq` above is kept for the report aggregator's dict comparisons. -/
def pyEqStr (v : PyVal) (s : String) : Bool :=
  match v with
  | .str t => t == s
  | _ => false

/-- Python truthiness: `bool(v)`. -/
def PyVal.truthy : PyVal → Bool
  | .none => false
  | .bool b => b
  | .int n => n != 0
  | .str s => s != ""
  | .list l => !l.isEmpty
  | .dict d => !d.isEmpty

/-- Whether a value is a dict. -/
def PyVal.isDict : PyVal → Bool
  | .dict _ => true
  | _ => false

/-- Whether a value is a string. -/
def PyVal.isStr : PyVal → Bool
  | .str _ => true
  | _ => false

/-- The ASCII apostrophe, kept as a character constant. -/
def sq : String := (Char.ofNat 39).toString

/-- Python `str(v)` on payload values (`repr` for elements of containers,
approximated without escape processing; the pipeline only ever stringifies
strings, numbers and `None`). -/
def PyVal.pyStr : PyVal → String
  | .none => "None"
  | .bool true => "True"
  | .bool false => "False"
  | .int n => toString n
  | .str s => s
  | .list [] => "[]"
  | .list (x :: xs) => "[" ++ x.pyStr ++ pyStrListTail xs ++ "]"
  | .dict [] => "\x7b\x7d"
  | .dict ((k, v) :: xs) =>
      "\x7b" ++ sq ++ k ++ sq ++ ": " ++ v.pyStr ++ pyStrKVsTail xs ++ "\x7d"
where
  pyStrListTail : List PyVal → String
    | [] => ""
    | x :: xs => ", " ++ x.pyStr ++ pyStrListTail xs
  pyStrKVsTail : List (String × PyVal) → String
    | [] => ""
    | (k, v) :: xs => ", " ++ sq ++ k ++ sq ++ ": " ++ v.pyStr ++ pyStrKVsTail xs

/-- Python `v.get(k, default)`: defined on dicts, an `AttributeError` on
anything else. -/
def pyGet (v : PyVal) (k : String) (default : PyVal) : Except PyErr PyVal :=
  match v with
  | .dict d => .ok ((lookup? d k).getD default)
  | _ => .error ⟨"AttributeError: value has no attribute get (key " ++ k ++ ")"⟩

/-- Whether `p` occurs as a contiguous run inside `l`. -/
def listHasRun (p : List Char) : List Char → Bool
  | [] => p.isEmpty
  | c :: rest => p.isPrefixOf (c :: rest) || listHasRun p rest

/-- Python `k in v` for a string `k`: key test on dicts, membership on
lists, substring test on strings, a `TypeError` on non-containers. -/
def pyContains (v : PyVal) (k : String) : Except PyErr Bool :=
  match v with
  | .dict d => .ok (d.any (fun kv => kv.1 == k))
  | .list l => .ok (l.any (fun x => pyEqStr x k))
  | .str s => .ok (listHasRun k.data s.data)
  | _ => .error ⟨"TypeError: argument of type is not iterable"⟩

/-- Python `v[k]` for a string key: dict lookup (a `KeyError` when the key
is absent), a `TypeError` on every other shape. -/
def pySubscript (v : PyVal) (k : String) : Except PyErr PyVal :=
  match v with
  | .dict d =>
      match lookup? d k with
      | Option.some x => .ok x
      | Option.none => .error ⟨"KeyError: " ++ k⟩
  | _ => .error ⟨"TypeError: value is not subscriptable by string " ++ k⟩

/-- Python iteration `for x in v`: a list yields its elements, a string its
characters (as one-character strings), a dict its keys; other values raise
a `TypeError`. -/
def pyIter (v : PyVal) : Except PyErr (List PyVal) :=
  match v with
  | .list l => .ok l
  | .str s => .ok (s.data.map (fun c => .str c.toString))
  | .dict d => .ok (d.map (fun kv => .str kv.1))
  | _ => .error ⟨"TypeError: value is not iterable"⟩

/-- Python `s.startswith(p)`, on the underlying character lists. -/
def pyStartsWith (s p : String) : Bool :=
  p.data.isPrefixOf s.data

/-- Python `s.strip()`: drop leading and trailing whitespace. -/
def pyStrip (s : String) : String :=
  ⟨((s.data.dropWhile Char.isWhitespace).reverse.dropWhile Char.isWhitespace).reverse⟩

/-!
## `SearchAgent.extract_summary`

The walk over `output_items → content → text`, with the source's early
returns (`return summary` as soon as a truthy `text` is found) rendered as
`Option` results, and every Python fault surfaced as `Except.error` so the
function-level `try/except` can be applied at the wrapper.
-/

/-- Inner loop of `extract_summary`: `for content in contents`, looking for
the first `"output_text"` entry whose `text` is truthy.  A non-dict entry
raises on `content.get("type")`. -/
def summaryFromContents : List PyVal → Except PyErr (Option PyVal)
  | [] => .ok Option.none
  | content :: rest =>
    match content with
    | .dict cd =>
      if pyEqStr ((lookup? cd "type").getD .none) "output_text" then
        let text := (lookup? cd "text").getD (.str "")
        if text.truthy then .ok (Option.some text) else summaryFromContents rest
      else summaryFromContents rest
    | _ => .error ⟨"AttributeError: value has no attribute get (key type)"⟩

/-- Outer loop of `extract_summary`: `for item in output_items`, descending
into each `"message"` item's `content` list. -/
def summaryFromItems : List PyVal → Except PyErr (Option PyVal)
  | [] => .ok Option.none
  | item :: rest =>
    match item with
    | .dict idt =>
      if pyEqStr ((lookup? idt "type").getD .none) "message" then
        match pyIter ((lookup? idt "content").getD (.list [])) with
        | .error e => .error e
        | .ok contents =>
          match summaryFromContents contents with
          | .error e => .error e
          | .ok (Option.some v) => .ok (Option.some v)
          | .ok Option.none => summaryFromItems rest
      else summaryFromItems rest
    | _ => .error ⟨"AttributeError: value has no attribute get (key type)"⟩

/-- Strategies 2–5 of `extract_summary` (source lines 175–188), reached
only when the walk produced nothing: the `output_text` / `text` /
`error` / placeholder chain, in source order. -/
def summaryFallbacks (response : PyVal) : Except PyErr PyVal := do
  let hasOT ← pyContains response "output_text"
  if hasOT then pySubscript response "output_text"
  else do
    let hasT ← pyContains response "text"
    if hasT then pySubscript response "text"
    else do
      let hasE ← pyContains response "error"
      if hasE then do
        let ev ← pyGet response "error" .none
        let base := "Error in search: " ++ ev.pyStr
        let hasEM ← pyContains response "error_message"
        if hasEM then do
          let em ← pyGet response "error_message" .none
          pure (.str (base ++ "\nDetails: " ++ em.pyStr))
        else pure (.str base)
      else do
        let m ← pyGet response "model" (.str "Unknown")
        pure (.str ("Summary could not be extracted in a structured way.\nModel: "
          ++ m.pyStr ++ "\nPlease check the raw response for complete information."))

/-- Body of the `try` block of `extract_summary`.  The local `summary`
variable is `""` at every `if not summary` test (each assignment inside
the walk returns immediately), so those tests are taken as passed. -/
def extractSummaryCore (response : PyVal) : Except PyErr PyVal := do
  let hasOI ← pyContains response "output_items"
  let fromItems ←
    if hasOI then do
      let oi ← pyGet response "output_items" (.list [])
      let items ← pyIter oi
      summaryFromItems items
    else pure Option.none
  match fromItems with
  | Option.some v => pure v
  | Option.none => summaryFallbacks response

/-- `SearchAgent.extract_summary`: the walk wrapped in the function-level
`try/except`, which converts any fault into the literal
`"Error extracting summary: ..."` placeholder. -/
def extract_summary (response : PyVal) : PyVal :=
  match extractSummaryCore response with
  | .ok v => v
  | .error e => .str ("Error extracting summary: " ++ e.msg)

/-!
## `SearchAgent.extract_citations`

The same walk, but accumulating `url_citation` records.  The source's
`try/except` wraps only the walk; the accumulated `citations` list is
returned afterwards, so a fault mid-walk yields the records collected so
far.  The walk functions therefore return the accumulator together with
the fault, if any.
-/

/-- The citation record built for one `url_citation` annotation dict, with
the source's defaults for absent fields. -/
def citationRecord (ad : List (String × PyVal)) : PyVal :=
  .dict [("url", (lookup? ad "url").getD (.str "")),
         ("title", (lookup? ad "title").getD (.str "")),
         ("start_index", (lookup? ad "start_index").getD (.int 0)),
         ("end_index", (lookup? ad "end_index").getD (.int 0))]

/-- `for annotation in annotations`: append a record per `url_citation`
entry; a non-dict entry raises on `.get(\x22type\x22)`, keeping the
accumulator. -/
def citationsFromAnns (acc : List PyVal) : List PyVal → List PyVal × Option PyErr
  | [] => (acc, Option.none)
  | a :: rest =>
    match a with
    | .dict ad =>
      if pyEqStr ((lookup? ad "type").getD .none) "url_citation" then
        citationsFromAnns (acc ++ [citationRecord ad]) rest
      else citationsFromAnns acc rest
    | _ => (acc, Option.some ⟨"AttributeError: value has no attribute get (key type)"⟩)

/-- `for content in contents`: descend into each `"output_text"` entry's
`annotations`. -/
def citationsFromContents (acc : List PyVal) : List PyVal → List PyVal × Option PyErr
  | [] => (acc, Option.none)
  | content :: rest =>
    match content with
    | .dict cd =>
      if pyEqStr ((lookup? cd "type").getD .none) "output_text" then
        match pyIter ((lookup? cd "annotations").getD (.list [])) with
        | .error e => (acc, Option.some e)
        | .ok anns =>
          match citationsFromAnns acc anns with
          | (acc2, Option.none) => citationsFromContents acc2 rest
          | (acc2, Option.some e) => (acc2, Option.some e)
      else citationsFromContents acc rest
    | _ => (acc, Option.some ⟨"AttributeError: value has no attribute get (key type)"⟩)

/-- `for item in output_items`: descend into each `"message"` item's
`content`. -/
def citationsFromItems (acc : List PyVal) : List PyVal → List PyVal × Option PyErr
  | [] => (acc, Option.none)
  | item :: rest =>
    match item with
    | .dict idt =>
      if pyEqStr ((lookup? idt "type").getD .none) "message" then
        match pyIter ((lookup? idt "content").getD (.list [])) with
        | .error e => (acc, Option.some e)
        | .ok contents =>
          match citationsFromContents acc contents with
          | (acc2, Option.none) => citationsFromItems acc2 rest
          | (acc2, Option.some e) => (acc2, Option.some e)
      else citationsFromItems acc rest
    | _ => (acc, Option.some ⟨"AttributeError: value has no attribute get (key type)"⟩)

/-- `SearchAgent.extract_citations`: runs the walk and returns whatever was
accumulated, discarding (printing, in the source) any fault.  A fault
before the first append — including a non-dict `response`, whose
`.get(\x22output_items\x22)` raises at once — yields the still-empty
list. -/
def extract_citations (response : PyVal) : List PyVal :=
  match response with
  | .dict d =>
    match pyIter ((lookup? d "output_items").getD (.list [])) with
    | .error _ => []
    | .ok items => (citationsFromItems [] items).fst
  | _ => []

/-!
## Data model and `SearchAgent.execute_search_step`

External LLM / web-search round-trips are abstracted as oracles: the
query-generation call is an `Except PyErr String` (its fault, if any,
propagates — `generate_search_query` has no handler), and the web-search
call is a total `String → PyVal` (`search_web` catches every fault of its
own and returns an error dict).
-/

/-- `planner_agent.ResearchStep`. -/
structure ResearchStep where
  instruction : String
  expected_outcome : String

/-- `planner_agent.ResearchPlan`. -/
structure ResearchPlan where
  query : String
  reasoning : String
  steps : List ResearchStep
  run_id : Option String

/-- `search_agent.SearchResult`. -/
structure SearchResult where
  step_number : Nat
  step_instruction : String
  search_query : String
  summary : String
  citations : List PyVal
  raw_response : PyVal

/-- The step executor's user-facing fallback sentence (source line 207). -/
def fallbackSummary (search_query : String) : String :=
  "Unable to retrieve results for the search query: " ++ sq ++ search_query ++ sq
    ++ ". This could be due to API limitations or connectivity issues. "
    ++ "You may want to try refining the search query or checking your internet connection."

/-- `SearchAgent.generate_search_query`: one LLM round-trip (the oracle
`llm` stands for `response.choices[0].message.content`) followed by
`.strip()`.  Any fault of the call propagates — the source has no handler
here. -/
def generate_search_query (llm : Except PyErr String) : Except PyErr String := do
  let content ← llm
  pure (pyStrip content)

/-- `SearchAgent.execute_search_step`: derive the query, search, extract,
apply the executor's own fallback layer
(`if not summary or summary.startswith("Error extracting summary")`), and
assemble the `SearchResult`.  A truthy non-string summary value makes
`.startswith` raise, as in the source. -/
def execute_search_step (llm : Except PyErr String) (web : String → PyVal)
    (step : ResearchStep) (step_number : Nat) : Except PyErr SearchResult := do
  let search_query ← generate_search_query llm
  let search_response := web search_query
  let summaryVal := extract_summary search_response
  let citations := extract_citations search_response
  let summary ←
    if summaryVal.truthy = false then pure (fallbackSummary search_query)
    else
      match summaryVal with
      | .str s =>
          pure (if pyStartsWith s "Error extracting summary" then fallbackSummary search_query
                else s)
      | _ => .error ⟨"AttributeError: value has no attribute startswith"⟩
  pure { step_number := step_number, step_instruction := step.instruction,
         search_query := search_query, summary := summary,
         citations := citations, raw_response := search_response }

/-!
## The per-step driver loop of `interfaces/cli.py` (`research`)

`research` executes the plan's steps 1-based and in order; each step's
`execute_search_step` call sits in its own `try/except`, so a step whose
call raises is skipped (its fault is printed) and the loop continues.
File writes are out of scope.  The per-step oracles are bundled into one
`exec` argument.
-/

/-- The loop body of `research`, from the first step index `i`. -/
def researchSteps (exec : ResearchStep → Nat → Except PyErr SearchResult) :
    List ResearchStep → Nat → List SearchResult
  | [], _ => []
  | step :: rest, i =>
    match exec step i with
    | .ok r => r :: researchSteps exec rest (i + 1)
    | .error _ => researchSteps exec rest (i + 1)

/-- `cli.research`'s aggregation of `search_results` over a plan. -/
def research (exec : ResearchStep → Nat → Except PyErr SearchResult)
    (steps : List ResearchStep) : List SearchResult :=
  researchSteps exec steps 1

/-!
## `ReportAgent._collect_all_data` and the report context

The combined citation list is built with
`if citation not in all_data["citations"] and "url" in citation and citation["url"]`,
evaluated with Python's short-circuiting in that order.
-/

/-- One entry of `all_data["steps"]`. -/
structure StepData where
  step_number : Nat
  instruction : String
  search_query : String
  summary : String

/-- `all_data` as built by `_collect_all_data`. -/
structure AllData where
  query : String
  reasoning : String
  steps : List StepData
  citations : List PyVal

/-- Python `c in acc` for the combined citation list (`==` per element). -/
def pyListContains (acc : List PyVal) (c : PyVal) : Bool :=
  acc.any (fun x => pyEq x c)

/-- The inner `for citation in result.citations` loop of
`_collect_all_data`. -/
def collectCitations (acc : List PyVal) : List PyVal → Except PyErr (List PyVal)
  | [] => .ok acc
  | c :: rest =>
    if pyListContains acc c then collectCitations acc rest
    else do
      let hasUrl ← pyContains c "url"
      if hasUrl then do
        let u ← pySubscript c "url"
        if u.truthy then collectCitations (acc ++ [c]) rest
        else collectCitations acc rest
      else collectCitations acc rest

/-- The outer `for result in search_results` loop, citations part. -/
def collectFromResults (acc : List PyVal) : List SearchResult → Except PyErr (List PyVal)
  | [] => .ok acc
  | r :: rest => do
    let acc2 ← collectCitations acc r.citations
    collectFromResults acc2 rest

/-- `ReportAgent._collect_all_data`. -/
def collect_all_data (plan : ResearchPlan) (search_results : List SearchResult) :
    Except PyErr AllData := do
  let cits ← collectFromResults [] search_results
  pure { query := plan.query, reasoning := plan.reasoning,
         steps := search_results.map (fun r =>
           { step_number := r.step_number, instruction := r.step_instruction,
             search_query := r.search_query, summary := r.summary }),
         citations := cits }

/-- The header block of the report context, byte-for-byte the f-string of
`generate_report` (the triple-quoted literal keeps its indentation,
including the eight spaces on the blank lines). -/
def contextHeader (query reasoning : String) : String :=
  "\n        RESEARCH QUERY: " ++ query
    ++ "\n        \n        RESEARCH REASONING: " ++ reasoning
    ++ "\n        \n        RESEARCH STEPS AND FINDINGS:\n        "

/-- The per-step blocks appended to the context. -/
def stepBlocks : List StepData → String
  | [] => ""
  | s :: rest =>
    "\n            STEP " ++ toString s.step_number ++ ": " ++ s.instruction
      ++ "\n            SEARCH QUERY: " ++ s.search_query
      ++ "\n            SUMMARY: " ++ s.summary
      ++ "\n            ---\n            " ++ stepBlocks rest

/-- The per-citation lines of the context's `CITATIONS` block
(`citation.get` with the `No title` / `No URL` defaults). -/
def citationLines : List PyVal → Except PyErr String
  | [] => .ok ""
  | c :: rest => do
    let t ← pyGet c "title" (.str "No title")
    let u ← pyGet c "url" (.str "No URL")
    let restS ← citationLines rest
    pure ("- " ++ t.pyStr ++ ": " ++ u.pyStr ++ "\n" ++ restS)

/-- The pure context-construction part of `ReportAgent.generate_report`
(everything before the LLM call). -/
def build_context (plan : ResearchPlan) (search_results : List SearchResult) :
    Except PyErr String := do
  let ad ← collect_all_data plan search_results
  let base := contextHeader ad.query ad.reasoning ++ stepBlocks ad.steps
  if ad.citations.isEmpty then pure base
  else do
    let cl ← citationLines ad.citations
    pure (base ++ "\nCITATIONS:\n" ++ cl)

/-!
## Specification-side definitions

Declarative restatements of the extraction walks, used to compare the
source functions against the spec's description, plus the well-formedness
of payloads the comparisons are proved under.
-/

/-- A content entry is well shaped: a dict whose `annotations` (consulted
only on `"output_text"` entries, defaulting to `[]`) is a list of dicts. -/
def wfContent : PyVal → Bool
  | .dict cd =>
    if pyEqStr ((lookup? cd "type").getD .none) "output_text" then
      match (lookup? cd "annotations").getD (.list []) with
      | .list anns => anns.all PyVal.isDict
      | _ => false
    else true
  | _ => false

/-- An output item is well shaped: a dict whose `content` (consulted only
on `"message"` items, defaulting to `[]`) is a list of well-shaped content
entries. -/
def wfItem : PyVal → Bool
  | .dict idt =>
    if pyEqStr ((lookup? idt "type").getD .none) "message" then
      match (lookup? idt "content").getD (.list []) with
      | .list cs => cs.all wfContent
      | _ => false
    else true
  | _ => false

/-- A response payload is well shaped: a dict whose `output_items`, when
present, is a list of well-shaped items. -/
def wfResponse : PyVal → Bool
  | .dict d =>
    match lookup? d "output_items" with
    | Option.none => true
    | Option.some (.list items) => items.all wfItem
    | Option.some _ => false
  | _ => false

/-- Spec: the citation record an annotation contributes — one record per
`"url_citation"` annotation, fields defaulted when absent, nothing for any
other annotation. -/
def specAnnCitation (a : PyVal) : Option PyVal :=
  match a with
  | .dict ad =>
    if pyEqStr ((lookup? ad "type").getD .none) "url_citation"
    then Option.some (citationRecord ad) else Option.none
  | _ => Option.none

/-- Spec: the citations one content entry contributes. -/
def specContCitations (c : PyVal) : List PyVal :=
  match c with
  | .dict cd =>
    if pyEqStr ((lookup? cd "type").getD .none) "output_text" then
      match (lookup? cd "annotations").getD (.list []) with
      | .list anns => anns.filterMap specAnnCitation
      | _ => []
    else []
  | _ => []

/-- Spec: the citations one output item contributes. -/
def specItemCitations (it : PyVal) : List PyVal :=
  match it with
  | .dict idt =>
    if pyEqStr ((lookup? idt "type").getD .none) "message" then
      match (lookup? idt "content").getD (.list []) with
      | .list cs => cs.flatMap specContCitations
      | _ => []
    else []
  | _ => []

/-- Spec: the full ordered citation list — every `"url_citation"`
annotation, in encounter order across `output_items`, `content` and
`annotations`. -/
def specCitations (response : PyVal) : List PyVal :=
  match response with
  | .dict d =>
    match (lookup? d "output_items").getD (.list []) with
    | .list items => items.flatMap specItemCitations
    | _ => []
  | _ => []

/-- Spec, strategy 1, per content entry: the text an `"output_text"`
entry offers, if truthy. -/
def specContentText (c : PyVal) : Option PyVal :=
  match c with
  | .dict cd =>
    if pyEqStr ((lookup? cd "type").getD .none) "output_text" then
      let t := (lookup? cd "text").getD (.str "")
      if t.truthy then Option.some t else Option.none
    else Option.none
  | _ => Option.none

/-- Spec, strategy 1, per item: the first truthy text a `"message"` item
offers through its content entries. -/
def specItemText (it : PyVal) : Option PyVal :=
  match it with
  | .dict idt =>
    if pyEqStr ((lookup? idt "type").getD .none) "message" then
      match (lookup? idt "content").getD (.list []) with
      | .list cs => cs.findSome? specContentText
      | _ => Option.none
    else Option.none
  | _ => Option.none

/-- Spec, summary strategy 1: walk `output_items`; for each `"message"`
item walk its `content`; return the first `"output_text"` entry whose
`text` is non-empty (truthy). -/
def specStrategy1 (items : List PyVal) : Option PyVal :=
  items.findSome? specItemText

/-- Spec, strategies 2–5, amended to what the source does at strategies 2
and 3 — the presence of the `output_text` (resp. `text`) KEY
short-circuits with its stored value verbatim, even when that value is
empty. -/
def specFallbacks (d : List (String × PyVal)) : PyVal :=
  match lookup? d "output_text" with
  | Option.some v => v
  | Option.none =>
    match lookup? d "text" with
    | Option.some v => v
    | Option.none =>
      match lookup? d "error" with
      | Option.some e =>
        .str ("Error in search: " ++ e.pyStr ++
          (match lookup? d "error_message" with
           | Option.some em => "\nDetails: " ++ em.pyStr
           | Option.none => ""))
      | Option.none =>
        .str ("Summary could not be extracted in a structured way.\nModel: "
          ++ ((lookup? d "model").getD (.str "Unknown")).pyStr
          ++ "\nPlease check the raw response for complete information.")

/-- Spec: the five-strategy summary cascade (strategy 1, then the
fallback chain). -/
def specSummary (response : PyVal) : PyVal :=
  match response with
  | .dict d =>
    let items := match (lookup? d "output_items").getD (.list []) with
      | .list l => l
      | _ => []
    match specStrategy1 items with
    | Option.some t => t
    | Option.none => specFallbacks d
  | _ => .str ""

/-- Spec: eligibility of a citation for the combined run-level list — its
`url` is present and truthy (for the dict-shaped citations the extractor
produces). -/
def specEligible (c : PyVal) : Bool :=
  match c with
  | .dict d =>
    match lookup? d "url" with
    | Option.some u => u.truthy
    | Option.none => false
  | _ => false

/-!
## Payload builders and concrete fixtures used by the theorems
-/

/-- A response whose single message/output_text entry carries the given
annotations list. -/
def mkAnnPayload (anns : List PyVal) : PyVal :=
  .dict [("output_items", .list [.dict [("type", .str "message"),
    ("content", .list [.dict [("type", .str "output_text"),
      ("text", .str "X is Z"), ("annotations", .list anns)]])]])]

/-- A response with the given `output_items`. -/
def mkItemsPayload (items : List PyVal) : PyVal :=
  .dict [("output_items", .list items)]

/-- A `"message"` item with the given `content` entries. -/
def msgWith (cs : List PyVal) : PyVal :=
  .dict [("type", .str "message"), ("content", .list cs)]

/-- A well-formed `url_citation` annotation used as a concrete input. -/
def exAnn : PyVal :=
  .dict [("type", .str "url_citation"), ("url", .str "http://a"), ("title", .str "A")]

/-- The record `exAnn` contributes. -/
def exRec : PyVal :=
  .dict [("url", .str "http://a"), ("title", .str "A"),
         ("start_index", .int 0), ("end_index", .int 0)]

/-- A concrete research step. -/
def exStep : ResearchStep := ⟨"find X", "facts about X"⟩

/-- A concrete plan. -/
def exPlan : ResearchPlan := ⟨"Q", "R", [exStep], Option.none⟩

/-- Two citations with identical `url` and `title` but different offsets. -/
def cit1 : PyVal :=
  .dict [("url", .str "http://a"), ("title", .str "A"),
         ("start_index", .int 0), ("end_index", .int 2)]

/-- See `cit1`. -/
def cit2 : PyVal :=
  .dict [("url", .str "http://a"), ("title", .str "A"),
         ("start_index", .int 3), ("end_index", .int 5)]

/-- A concrete search result carrying `cit1` and `cit2`. -/
def exRes : SearchResult := ⟨1, "find X", "q", "s", [cit1, cit2], .dict []⟩

/-- A concrete well-formed `"message"` item whose first output text is
`"from items"`. -/
def exMsgItem : PyVal :=
  .dict [("type", .str "message"),
         ("content", .list [.dict [("type", .str "output_text"), ("text", .str "from items")]])]

/-!
## Helper lemmas
-/

/-- Appending cannot erase a non-empty left part. -/
theorem append_length_ne (a b : String) (h : a.length ≠ 0) : (a ++ b).length ≠ 0 := by
  rw [String.length_append]
  omega

/-- A string with a non-empty left part is non-empty. -/
theorem append_ne_empty (a b : String) (h : a.length ≠ 0) : (a ++ b) ≠ "" := by
  intro he
  have : (a ++ b).length = 0 := by rw [he]; rfl
  rw [String.length_append] at this
  omega

/-- The executor's fallback sentence is never empty. -/
theorem fallbackSummary_ne_empty (q : String) : fallbackSummary q ≠ "" := by
  unfold fallbackSummary
  apply append_ne_empty
  apply append_length_ne
  apply append_length_ne
  apply append_length_ne
  decide

/-- String truthiness gives plain disequality. -/
theorem ne_of_truthy {s : String} (h : (PyVal.str s).truthy = true) : s ≠ "" := by
  simp only [PyVal.truthy, bne_iff_ne, ne_eq] at h
  exact h

/-- The driver loop from any start index is the `filterMap` of the
per-step outcomes over the enumerated steps. -/
theorem researchSteps_filterMap (exec : ResearchStep → Nat → Except PyErr SearchResult) :
    ∀ (steps : List ResearchStep) (i : Nat),
    researchSteps exec steps i
      = (List.enumFrom i steps).filterMap (fun p => (exec p.2 p.1).toOption) := by
  intro steps
  induction steps with
  | nil => intro i; rfl
  | cons a rest ih =>
    intro i
    simp only [researchSteps, List.enumFrom, List.filterMap]
    cases h : exec a i with
    | ok r => simp [h, Except.toOption, ih (i + 1)]
    | error e => simp [h, Except.toOption, ih (i + 1)]

/-- The driver loop keeps exactly one result per non-faulting step. -/
theorem researchSteps_length (exec : ResearchStep → Nat → Except PyErr SearchResult) :
    ∀ (steps : List ResearchStep) (i : Nat),
    (researchSteps exec steps i).length
      = (List.enumFrom i steps).countP (fun p => (exec p.2 p.1).isOk) := by
  intro steps
  induction steps with
  | nil => intro i; rfl
  | cons a rest ih =>
    intro i
    simp only [researchSteps, List.enumFrom, List.countP_cons]
    cases h : exec a i with
    | ok r => simp [h, Except.isOk, Except.toBool, ih (i + 1)]
    | error e => simp [h, Except.isOk, Except.toBool, ih (i + 1)]

/-!
## Claim theorems
-/

/-- Claim C3 (corrected): a search response `{"error": e}` makes summary
extraction yield `"Error in search: " ++ e` — which does NOT begin with the
extraction-failure marker `"Error extracting summary"`, so the executor's
fallback layer does NOT replace it: the error-derived summary is surfaced
verbatim as the step's summary (with the citations empty and the raw
response retained). -/
theorem error_summary_surfaced (e q : String) (st : ResearchStep) (n : Nat) :
    extract_summary (.dict [("error", .str e)]) = .str ("Error in search: " ++ e)
    ∧ pyStartsWith ("Error in search: " ++ e) "Error extracting summary" = false
    ∧ execute_search_step (.ok q) (fun _ => .dict [("error", .str e)]) st n
        = .ok { step_number := n, step_instruction := st.instruction,
                search_query := pyStrip q, summary := "Error in search: " ++ e,
                citations := [], raw_response := .dict [("error", .str e)] } :=
  ⟨rfl, rfl, rfl⟩

/-- Claim C3, counterexample to the claim as stated: for
`{"error": "rate limited"}` the extracted summary
`"Error in search: rate limited"` does contain `"rate limited"`, but it
does not match the executor's failure-marker condition (it is non-empty
and does not begin with `"Error extracting summary"`), so the executor
keeps it — it is NOT replaced by the connectivity-fallback sentence. -/
theorem error_summary_kept_cex :
    extract_summary (.dict [("error", .str "rate limited")])
        = .str "Error in search: rate limited"
    ∧ listHasRun "rate limited".data ("Error in search: rate limited").data = true
    ∧ pyStartsWith "Error in search: rate limited" "Error extracting summary" = false
    ∧ execute_search_step (.ok "q") (fun _ => .dict [("error", .str "rate limited")]) exStep 2
        = .ok { step_number := 2, step_instruction := exStep.instruction,
                search_query := "q", summary := "Error in search: rate limited",
                citations := [], raw_response := .dict [("error", .str "rate limited")] }
    ∧ ("Error in search: rate limited" == fallbackSummary "q") = false :=
  ⟨rfl, rfl, rfl, rfl, rfl⟩

/-- Claim C7 (confirmed): the CLI run loop consults every enumerated step
in order — a step whose executor call faults is skipped and the loop
continues — and the aggregate is exactly the ordered list of the
non-faulting steps' results, so its length equals the number of steps
that did not hit a step-fatal fault. -/
theorem research_loop_fault_containment
    (exec : ResearchStep → Nat → Except PyErr SearchResult) (steps : List ResearchStep) :
    research exec steps
      = (List.enumFrom 1 steps).filterMap (fun p => (exec p.2 p.1).toOption)
    ∧ (research exec steps).length
      = (List.enumFrom 1 steps).countP (fun p => (exec p.2 p.1).isOk) :=
  ⟨researchSteps_filterMap exec steps 1, researchSteps_length exec steps 1⟩

/-- Claim C8 (corrected): provided the query-generation call succeeds and
summary extraction does not yield a truthy non-string value (it yields a
string on every payload the search wrapper itself constructs), executing a
step never raises: it returns a fully populated `SearchResult` whose
summary is non-empty — either the extracted string or, at worst, the
degraded fallback sentence. -/
theorem execute_step_populated (content : String) (web : String → PyVal)
    (st : ResearchStep) (n : Nat)
    (hs : (extract_summary (web (pyStrip content))).truthy = true →
          (extract_summary (web (pyStrip content))).isStr = true) :
    ∃ r, execute_search_step (.ok content) web st n = .ok r ∧
      r.step_number = n ∧ r.step_instruction = st.instruction ∧
      r.search_query = pyStrip content ∧
      r.citations = extract_citations (web (pyStrip content)) ∧
      r.raw_response = web (pyStrip content) ∧
      r.summary ≠ "" ∧
      (r.summary = fallbackSummary (pyStrip content)
        ∨ extract_summary (web (pyStrip content)) = .str r.summary) := by
  cases hv : (extract_summary (web (pyStrip content))).truthy with
  | false =>
    refine ⟨⟨n, st.instruction, pyStrip content, fallbackSummary (pyStrip content),
             extract_citations (web (pyStrip content)), web (pyStrip content)⟩,
      ?_, rfl, rfl, rfl, rfl, rfl, fallbackSummary_ne_empty _, Or.inl rfl⟩
    simp [execute_search_step, generate_search_query, bind, Except.bind, pure, Except.pure, hv]
  | true =>
    have hstr := hs hv
    cases hv2 : extract_summary (web (pyStrip content)) with
    | str s =>
      rw [hv2] at hv
      cases hps : pyStartsWith s "Error extracting summary" with
      | true =>
        refine ⟨⟨n, st.instruction, pyStrip content, fallbackSummary (pyStrip content),
                 extract_citations (web (pyStrip content)), web (pyStrip content)⟩,
          ?_, rfl, rfl, rfl, rfl, rfl, fallbackSummary_ne_empty _, Or.inl rfl⟩
        simp [execute_search_step, generate_search_query, bind, Except.bind, pure, Except.pure,
          hv, hv2, hps]
      | false =>
        refine ⟨⟨n, st.instruction, pyStrip content, s,
                 extract_citations (web (pyStrip content)), web (pyStrip content)⟩,
          ?_, rfl, rfl, rfl, rfl, rfl, ne_of_truthy hv, Or.inr rfl⟩
        simp [execute_search_step, generate_search_query, bind, Except.bind, pure, Except.pure,
          hv, hv2, hps]
    | none => rw [hv2] at hstr; simp [PyVal.isStr] at hstr
    | bool b => rw [hv2] at hstr; simp [PyVal.isStr] at hstr
    | int m => rw [hv2] at hstr; simp [PyVal.isStr] at hstr
    | list l => rw [hv2] at hstr; simp [PyVal.isStr] at hstr
    | dict d => rw [hv2] at hstr; simp [PyVal.isStr] at hstr

/-- Claim C8, witness: the theorem applied at a concrete step whose search
payload is an error dict. -/
theorem execute_step_populated_witness :
    ∃ r, execute_search_step (.ok "find X facts") (fun _ => .dict [("error", .str "boom")])
        exStep 1 = .ok r ∧
      r.step_number = 1 ∧ r.step_instruction = exStep.instruction ∧
      r.search_query = pyStrip "find X facts" ∧
      r.citations = extract_citations
        ((fun _ => PyVal.dict [("error", .str "boom")]) (pyStrip "find X facts")) ∧
      r.raw_response = (fun _ => PyVal.dict [("error", .str "boom")]) (pyStrip "find X facts") ∧
      r.summary ≠ "" ∧
      (r.summary = fallbackSummary (pyStrip "find X facts")
        ∨ extract_summary ((fun _ => PyVal.dict [("error", .str "boom")])
            (pyStrip "find X facts")) = .str r.summary) :=
  execute_step_populated "find X facts" (fun _ => .dict [("error", .str "boom")]) exStep 1
    (fun _ => rfl)

/-- Claim C8, counterexample to the claim as stated: a query-generation
fault is NOT absorbed — `execute_search_step` propagates it instead of
returning a `SearchResult` (the CLI loop, not the executor, catches it). -/
theorem execute_step_raises_cex :
    execute_search_step (.error ⟨"network unreachable"⟩) (fun _ => .dict []) exStep 1
      = .error ⟨"network unreachable"⟩ :=
  rfl

/-- Claim C1, counterexample to the claim as stated: with
`{"output_text": "", "text": "hello"}` the "first non-empty text wins"
reading demands `"hello"`, but the source returns the `output_text` value
verbatim — the empty string — because key presence, not non-emptiness,
short-circuits at strategies 2 and 3. -/
theorem extract_summary_cascade_cex :
    extract_summary (.dict [("output_text", .str ""), ("text", .str "hello")]) = .str ""
    ∧ pyEq (extract_summary (.dict [("output_text", .str ""), ("text", .str "hello")]))
        (.str "hello") = false :=
  ⟨rfl, rfl⟩

/-- Claim C2, counterexample to the claim as stated: on
`{"output_text": ""}` summary extraction returns the empty string (the
stored `output_text` value verbatim), not a non-empty string. -/
theorem extract_summary_nonempty_cex :
    extract_summary (.dict [("output_text", .str "")]) = .str ""
    ∧ (extract_summary (.dict [("output_text", .str "")])).truthy = false :=
  ⟨rfl, rfl⟩

/-- Claim C4, counterexample to the claim as stated: a malformed (non-dict)
annotation after a valid one yields the partial list with the
already-collected citation — not the empty list (the `citations`
accumulator survives the caught fault). -/
theorem citations_partial_cex :
    extract_citations (mkAnnPayload [exAnn, .int 5]) = [exRec]
    ∧ (extract_citations (mkAnnPayload [exAnn, .int 5])).isEmpty = false :=
  ⟨rfl, rfl⟩

/-- Claim C6, counterexample to the claim as stated: `cit1` and `cit2`
have identical `url` and `title` but different offsets; the combined list
keeps BOTH (membership is tested with full structural `==` over the whole
mapping, not `url`+`title`). -/
theorem collect_citations_dedup_cex :
    (collect_all_data exPlan [exRes]).map AllData.citations = .ok [cit1, cit2]
    ∧ pySubscript cit1 "url" = pySubscript cit2 "url"
    ∧ pySubscript cit1 "title" = pySubscript cit2 "title"
    ∧ pyEq cit1 cit2 = false :=
  ⟨rfl, rfl, rfl, rfl⟩


theorem citationsFromAnns_complete (anns : List PyVal) :
    ∀ acc, anns.all PyVal.isDict = true →
    citationsFromAnns acc anns = (acc ++ anns.filterMap specAnnCitation, Option.none) := by
  induction anns with
  | nil => intro acc _; simp [citationsFromAnns]
  | cons a rest ih =>
    intro acc h
    simp only [List.all_cons, Bool.and_eq_true] at h
    obtain ⟨ha, hrest⟩ := h
    cases a with
    | dict ad =>
      simp only [citationsFromAnns, List.filterMap, specAnnCitation]
      cases hty : pyEqStr ((lookup? ad "type").getD .none) "url_citation" with
      | true => simp [hty, ih _ hrest, List.append_assoc]
      | false => simp [hty, ih _ hrest]
    | none => simp [PyVal.isDict] at ha
    | bool b => simp [PyVal.isDict] at ha
    | int n => simp [PyVal.isDict] at ha
    | str s => simp [PyVal.isDict] at ha
    | list l => simp [PyVal.isDict] at ha

theorem citationsFromContents_complete (cs : List PyVal) :
    ∀ acc, cs.all wfContent = true →
    citationsFromContents acc cs = (acc ++ cs.flatMap specContCitations, Option.none) := by
  induction cs with
  | nil => intro acc _; simp [citationsFromContents]
  | cons c rest ih =>
    intro acc h
    simp only [List.all_cons, Bool.and_eq_true] at h
    obtain ⟨hc, hrest⟩ := h
    cases c with
    | dict cd =>
      simp only [citationsFromContents, List.flatMap_cons, specContCitations]
      cases hty : pyEqStr ((lookup? cd "type").getD .none) "output_text" with
      | true =>
        simp only [wfContent, hty, if_true] at hc
        rcases hgd : (lookup? cd "annotations").getD (.list []) with _ | b | n | s | anns | dd
        · rw [hgd] at hc; simp at hc
        · rw [hgd] at hc; simp at hc
        · rw [hgd] at hc; simp at hc
        · rw [hgd] at hc; simp at hc
        · rw [hgd] at hc
          simp only [pyIter, if_true]
          rw [citationsFromAnns_complete anns acc (by exact hc)]
          simp [ih _ hrest, List.append_assoc]
        · rw [hgd] at hc; simp at hc
      | false =>
        simp [hty, ih _ hrest]
    | none => simp [wfContent] at hc
    | bool b => simp [wfContent] at hc
    | int n => simp [wfContent] at hc
    | str s => simp [wfContent] at hc
    | list l => simp [wfContent] at hc

theorem citationsFromItems_complete (items : List PyVal) :
    ∀ acc, items.all wfItem = true →
    citationsFromItems acc items = (acc ++ items.flatMap specItemCitations, Option.none) := by
  induction items with
  | nil => intro acc _; simp [citationsFromItems]
  | cons it rest ih =>
    intro acc h
    simp only [List.all_cons, Bool.and_eq_true] at h
    obtain ⟨hi, hrest⟩ := h
    cases it with
    | dict idt =>
      simp only [citationsFromItems, List.flatMap_cons, specItemCitations]
      cases hty : pyEqStr ((lookup? idt "type").getD .none) "message" with
      | true =>
        simp only [wfItem, hty, if_true] at hi
        rcases hgd : (lookup? idt "content").getD (.list []) with _ | b | n | s | cs | dd
        · rw [hgd] at hi; simp at hi
        · rw [hgd] at hi; simp at hi
        · rw [hgd] at hi; simp at hi
        · rw [hgd] at hi; simp at hi
        · rw [hgd] at hi
          simp only [pyIter, if_true]
          rw [citationsFromContents_complete cs acc (by exact hi)]
          simp [ih _ hrest, List.append_assoc]
        · rw [hgd] at hi; simp at hi
      | false =>
        simp [hty, ih _ hrest]
    | none => simp [wfItem] at hi
    | bool b => simp [wfItem] at hi
    | int n => simp [wfItem] at hi
    | str s => simp [wfItem] at hi
    | list l => simp [wfItem] at hi

/-- Claim C5 (confirmed): on every well-formed response, citation
extraction emits exactly one record per `"url_citation"` annotation, with
`url`/`title`/`start_index`/`end_index` defaulted to `""`/`0` when absent,
in precisely the order the annotations are encountered across
`output_items`, `content` entries and `annotations` lists (the ordered
flattening `specCitations`). -/
theorem extract_citations_ordered_records (r : PyVal) (h : wfResponse r = true) :
    extract_citations r = specCitations r := by
  cases r with
  | dict d =>
    simp only [extract_citations, specCitations]
    rcases hoi : lookup? d "output_items" with _ | v
    · simp [pyIter, citationsFromItems]
    · cases v with
      | list items =>
        simp only [wfResponse, hoi] at h
        simp only [Option.getD, pyIter]
        rw [citationsFromItems_complete items [] (by exact h)]
        simp
      | none => simp [wfResponse, hoi] at h
      | bool b => simp [wfResponse, hoi] at h
      | int n => simp [wfResponse, hoi] at h
      | str s2 => simp [wfResponse, hoi] at h
      | dict dd => simp [wfResponse, hoi] at h
  | none => simp [wfResponse] at h
  | bool b => simp [wfResponse] at h
  | int n => simp [wfResponse] at h
  | str s2 => simp [wfResponse] at h
  | list l => simp [wfResponse] at h

theorem citationsFromAnns_partial (good : List PyVal) :
    ∀ acc (b : PyVal) (rest : List PyVal), good.all PyVal.isDict = true → b.isDict = false →
    citationsFromAnns acc (good ++ b :: rest)
      = (acc ++ good.filterMap specAnnCitation,
         Option.some ⟨"AttributeError: value has no attribute get (key type)"⟩) := by
  induction good with
  | nil =>
    intro acc b rest _ hb
    cases b with
    | dict ad => simp [PyVal.isDict] at hb
    | none => simp [citationsFromAnns]
    | bool x => simp [citationsFromAnns]
    | int x => simp [citationsFromAnns]
    | str x => simp [citationsFromAnns]
    | list x => simp [citationsFromAnns]
  | cons a rest2 ih =>
    intro acc b rest h hb
    simp only [List.all_cons, Bool.and_eq_true] at h
    obtain ⟨ha, hrest⟩ := h
    cases a with
    | dict ad =>
      simp only [List.cons_append, citationsFromAnns, List.filterMap, specAnnCitation]
      cases hty : pyEqStr ((lookup? ad "type").getD .none) "url_citation" with
      | true => simp [hty, ih _ b rest hrest hb, List.append_assoc]
      | false => simp [hty, ih _ b rest hrest hb]
    | none => simp [PyVal.isDict] at ha
    | bool x => simp [PyVal.isDict] at ha
    | int x => simp [PyVal.isDict] at ha
    | str x => simp [PyVal.isDict] at ha
    | list x => simp [PyVal.isDict] at ha

/-- Claim C4 (corrected): a structural failure partway through the
citation walk does NOT yield the empty list — it returns exactly the
citations collected before the failure: with well-shaped annotations
`good` followed by a malformed (non-dict) annotation, the result is the
records of `good`, whatever comes after the failure point. -/
theorem citations_partial_prefix (good : List PyVal) (b : PyVal) (rest : List PyVal)
    (hg : good.all PyVal.isDict = true) (hb : b.isDict = false) :
    extract_citations (mkAnnPayload (good ++ b :: rest)) = good.filterMap specAnnCitation := by
  have hp := citationsFromAnns_partial good [] b rest hg hb
  simp [extract_citations, mkAnnPayload, pyIter, citationsFromItems, citationsFromContents,
    pyEqStr, lookup?, List.find?, hp]


theorem extract_citations_mkItemsPayload (items : List PyVal) :
    extract_citations (mkItemsPayload items) = (citationsFromItems [] items).fst := rfl

theorem citationsFromItems_skip (bd : List (String × PyVal))
    (hb : pyEqStr ((lookup? bd "type").getD .none) "message" = false) :
    ∀ (l1 acc l2 : List PyVal),
    citationsFromItems acc (l1 ++ .dict bd :: l2) = citationsFromItems acc (l1 ++ l2) := by
  intro l1
  induction l1 with
  | nil =>
    intro acc l2
    simp [citationsFromItems, hb]
  | cons h t ih =>
    intro acc l2
    cases h with
    | dict idt =>
      simp only [List.cons_append, citationsFromItems]
      cases hty : pyEqStr ((lookup? idt "type").getD .none) "message" with
      | true =>
        simp only [if_true]
        cases hit : pyIter ((lookup? idt "content").getD (.list [])) with
        | error e => rfl
        | ok contents =>
          rcases hcw : citationsFromContents acc contents with ⟨acc2, e⟩
          cases e
          · simp only [hcw]
            exact ih acc2 l2
          · simp only [hcw]
      | false => simpa [hty] using ih acc l2
    | none => rfl
    | bool x => rfl
    | int x => rfl
    | str x => rfl
    | list x => rfl

theorem citationsFromContents_skip (cd : List (String × PyVal))
    (hc : pyEqStr ((lookup? cd "type").getD .none) "output_text" = false) :
    ∀ (cs1 acc cs2 : List PyVal),
    citationsFromContents acc (cs1 ++ .dict cd :: cs2) = citationsFromContents acc (cs1 ++ cs2) := by
  intro cs1
  induction cs1 with
  | nil =>
    intro acc cs2
    simp [citationsFromContents, hc]
  | cons h t ih =>
    intro acc cs2
    cases h with
    | dict cd2 =>
      simp only [List.cons_append, citationsFromContents]
      cases hty : pyEqStr ((lookup? cd2 "type").getD .none) "output_text" with
      | true =>
        simp only [if_true]
        cases hit : pyIter ((lookup? cd2 "annotations").getD (.list [])) with
        | error e => rfl
        | ok anns =>
          rcases haw : citationsFromAnns acc anns with ⟨acc2, e⟩
          cases e
          · simp only [haw]
            exact ih acc2 cs2
          · simp only [haw]
      | false => simpa [hty] using ih acc cs2
    | none => rfl
    | bool x => rfl
    | int x => rfl
    | str x => rfl
    | list x => rfl

theorem citationsFromItems_congr (cs cs2 : List PyVal)
    (hcc : ∀ acc, citationsFromContents acc cs = citationsFromContents acc cs2) :
    ∀ (l1 acc l2 : List PyVal),
    citationsFromItems acc (l1 ++ msgWith cs :: l2)
      = citationsFromItems acc (l1 ++ msgWith cs2 :: l2) := by
  intro l1
  induction l1 with
  | nil =>
    intro acc l2
    show (match citationsFromContents acc cs with
          | (acc2, Option.none) => citationsFromItems acc2 l2
          | (acc2, Option.some e) => (acc2, Option.some e))
        = (match citationsFromContents acc cs2 with
          | (acc2, Option.none) => citationsFromItems acc2 l2
          | (acc2, Option.some e) => (acc2, Option.some e))
    rw [hcc acc]
  | cons h t ih =>
    intro acc l2
    cases h with
    | dict idt =>
      simp only [List.cons_append, citationsFromItems]
      cases hty : pyEqStr ((lookup? idt "type").getD .none) "message" with
      | true =>
        simp only [if_true]
        cases hit : pyIter ((lookup? idt "content").getD (.list [])) with
        | error e => rfl
        | ok contents =>
          rcases hcw : citationsFromContents acc contents with ⟨acc2, e⟩
          cases e
          · simp only [hcw]
            exact ih acc2 l2
          · simp only [hcw]
      | false => simpa [hty] using ih acc l2
    | none => rfl
    | bool x => rfl
    | int x => rfl
    | str x => rfl
    | list x => rfl

/-- Claim C10 (confirmed): citation extraction only looks at annotations
under `"message"` items and `"output_text"` content entries.  Inserting an
item of any other kind (with arbitrary content, `bd`), or a content entry
of any other kind (with arbitrary annotations, `cd`) into a message item,
leaves the extracted citation list unchanged — such annotations are
silently ignored. -/
theorem citations_message_output_text_only
    (l1 l2 : List PyVal) (bd : List (String × PyVal))
    (cs1 cs2 : List PyVal) (cd : List (String × PyVal))
    (hb : pyEqStr ((lookup? bd "type").getD .none) "message" = false)
    (hc : pyEqStr ((lookup? cd "type").getD .none) "output_text" = false) :
    extract_citations (mkItemsPayload (l1 ++ .dict bd :: l2))
        = extract_citations (mkItemsPayload (l1 ++ l2))
    ∧ extract_citations (mkItemsPayload (l1 ++ msgWith (cs1 ++ .dict cd :: cs2) :: l2))
        = extract_citations (mkItemsPayload (l1 ++ msgWith (cs1 ++ cs2) :: l2)) := by
  constructor
  · rw [extract_citations_mkItemsPayload, extract_citations_mkItemsPayload,
      citationsFromItems_skip bd hb l1 [] l2]
  · rw [extract_citations_mkItemsPayload, extract_citations_mkItemsPayload,
      citationsFromItems_congr _ _ (fun acc => citationsFromContents_skip cd hc cs1 acc cs2) l1 [] l2]

/-- Claim C4, witness: a valid annotation, then a malformed one, then
another valid one — extraction keeps exactly the first record. -/
theorem citations_partial_prefix_witness :
    extract_citations (mkAnnPayload ([exAnn] ++ PyVal.int 5 :: [exAnn]))
      = [exAnn].filterMap specAnnCitation :=
  citations_partial_prefix [exAnn] (.int 5) [exAnn] rfl rfl

/-- Claim C5, witness: the characterization applied to a concrete
well-formed payload with one citation annotation and one non-citation
annotation. -/
theorem extract_citations_ordered_records_witness :
    extract_citations (mkAnnPayload [exAnn, .dict [("type", .str "other")]])
      = specCitations (mkAnnPayload [exAnn, .dict [("type", .str "other")]]) :=
  extract_citations_ordered_records (mkAnnPayload [exAnn, .dict [("type", .str "other")]]) rfl

/-- Claim C10, witness: a `"reasoning"` item and a `"summary_text"`
content entry, each carrying a `url_citation` annotation, contribute
nothing. -/
theorem citations_message_output_text_only_witness :
    extract_citations (mkItemsPayload ([] ++ PyVal.dict [("type", .str "reasoning"),
        ("content", .list [.dict [("type", .str "output_text"),
          ("annotations", .list [exAnn])]])] :: []))
      = extract_citations (mkItemsPayload ([] ++ []))
    ∧ extract_citations (mkItemsPayload ([] ++ msgWith ([] ++ PyVal.dict
        [("type", .str "summary_text"), ("annotations", .list [exAnn])] :: []) :: []))
      = extract_citations (mkItemsPayload ([] ++ msgWith ([] ++ []) :: [])) :=
  citations_message_output_text_only [] [] [("type", .str "reasoning"),
      ("content", .list [.dict [("type", .str "output_text"), ("annotations", .list [exAnn])]])]
    [] [] [("type", .str "summary_text"), ("annotations", .list [exAnn])] rfl rfl


theorem pyListContains_append (a b : List PyVal) (c : PyVal) :
    pyListContains (a ++ b) c = (pyListContains a c || pyListContains b c) := by
  simp [pyListContains, List.any_append]

theorem anyKey_isSome (d : List (String × PyVal)) (k : String) :
    (d.any (fun kv => kv.1 == k)) = (lookup? d k).isSome := by
  induction d with
  | nil => rfl
  | cons kv rest ih =>
    simp only [List.any_cons, lookup?, List.find?]
    cases h : kv.1 == k with
    | true => simp
    | false => simpa [lookup?] using ih

theorem collectCitations_invariant (cs : List PyVal) :
    ∀ acc, (∀ c ∈ cs, c.isDict = true) →
    ∃ add, collectCitations acc cs = .ok (acc ++ add)
      ∧ List.Sublist add cs
      ∧ (∀ c ∈ add, specEligible c = true)
      ∧ (∀ c ∈ cs, specEligible c = true → ∃ a ∈ acc ++ add, (a = c ∨ pyEq a c = true))
      ∧ (∀ c ∈ add, pyListContains acc c = false)
      ∧ List.Pairwise (fun a b => pyEq a b = false) add := by
  induction cs with
  | nil =>
    intro acc _
    exact ⟨[], by simp [collectCitations], List.Sublist.refl _, by simp, by simp, by simp, by simp⟩
  | cons c rest ih =>
    intro acc h
    have hd : c.isDict = true := h c (List.mem_cons_self c rest)
    have hrest : ∀ x ∈ rest, x.isDict = true := fun x hx => h x (List.mem_cons_of_mem c hx)
    cases hdup : pyListContains acc c with
    | true =>
      obtain ⟨add, heq, hsub, helig, hcomp, hnew, hpw⟩ := ih acc hrest
      refine ⟨add, ?_, hsub.cons c, helig, ?_, hnew, hpw⟩
      · simp [collectCitations, hdup, heq]
      · intro x hx hex
        rcases List.mem_cons.mp hx with hx1 | hx2
        · subst hx1
          have := (by simpa [pyListContains, List.any_eq_true] using hdup :
            ∃ a ∈ acc, pyEq a x = true)
          obtain ⟨a, ha, hpe⟩ := this
          exact ⟨a, List.mem_append_left _ ha, Or.inr hpe⟩
        · exact hcomp x hx2 hex
    | false =>
      cases c with
      | dict d =>
        cases hurl : d.any (fun kv => kv.1 == "url") with
        | false =>
          obtain ⟨add, heq, hsub, helig, hcomp, hnew, hpw⟩ := ih acc hrest
          have hls : lookup? d "url" = Option.none := by
            rw [anyKey_isSome] at hurl
            exact Option.not_isSome_iff_eq_none.mp (by simp [hurl])
          refine ⟨add, ?_, hsub.cons _, helig, ?_, hnew, hpw⟩
          · simp [collectCitations, hdup, pyContains, hurl, bind, Except.bind, heq]
          · intro x hx hex
            rcases List.mem_cons.mp hx with hx1 | hx2
            · subst hx1
              simp [specEligible, hls] at hex
            · exact hcomp x hx2 hex
        | true =>
          have hls : (lookup? d "url").isSome = true := by rw [← anyKey_isSome, hurl]
          obtain ⟨u, hu⟩ := Option.isSome_iff_exists.mp hls
          cases hut : u.truthy with
          | false =>
            obtain ⟨add, heq, hsub, helig, hcomp, hnew, hpw⟩ := ih acc hrest
            refine ⟨add, ?_, hsub.cons _, helig, ?_, hnew, hpw⟩
            · simp [collectCitations, hdup, pyContains, hurl, bind, Except.bind,
                pySubscript, hu, hut, heq]
            · intro x hx hex
              rcases List.mem_cons.mp hx with hx1 | hx2
              · subst hx1
                simp [specEligible, hu, hut] at hex
              · exact hcomp x hx2 hex
          | true =>
            obtain ⟨add, heq, hsub, helig, hcomp, hnew, hpw⟩ := ih (acc ++ [PyVal.dict d]) hrest
            refine ⟨PyVal.dict d :: add, ?_, hsub.cons₂ _, ?_, ?_, ?_, ?_⟩
            · simp [collectCitations, hdup, pyContains, hurl, bind, Except.bind,
                pySubscript, hu, hut, heq, List.append_assoc]
            · intro x hx
              rcases List.mem_cons.mp hx with hx1 | hx2
              · subst hx1; simp [specEligible, hu, hut]
              · exact helig x hx2
            · intro x hx hex
              rcases List.mem_cons.mp hx with hx1 | hx2
              · subst hx1
                exact ⟨PyVal.dict d,
                  List.mem_append_right _ (List.mem_cons_self _ _), Or.inl rfl⟩
              · obtain ⟨a, ha, hor⟩ := hcomp x hx2 hex
                refine ⟨a, ?_, hor⟩
                rw [List.append_assoc] at ha
                simpa using ha
            · intro x hx
              rcases List.mem_cons.mp hx with hx1 | hx2
              · subst hx1; exact hdup
              · have := hnew x hx2
                rw [pyListContains_append] at this
                exact (Bool.or_eq_false_iff.mp this).1
            · refine List.pairwise_cons.mpr ⟨?_, hpw⟩
              intro b hb
              have := hnew b hb
              rw [pyListContains_append] at this
              have h2 := (Bool.or_eq_false_iff.mp this).2
              simpa [pyListContains] using h2
      | none => simp [PyVal.isDict] at hd
      | bool x => simp [PyVal.isDict] at hd
      | int x => simp [PyVal.isDict] at hd
      | str x => simp [PyVal.isDict] at hd
      | list x => simp [PyVal.isDict] at hd

theorem collectFromResults_invariant (results : List SearchResult) :
    ∀ acc, (∀ r ∈ results, ∀ c ∈ r.citations, c.isDict = true) →
    ∃ add, collectFromResults acc results = .ok (acc ++ add)
      ∧ List.Sublist add (results.flatMap SearchResult.citations)
      ∧ (∀ c ∈ add, specEligible c = true)
      ∧ (∀ c ∈ results.flatMap SearchResult.citations, specEligible c = true →
           ∃ a ∈ acc ++ add, (a = c ∨ pyEq a c = true))
      ∧ (∀ c ∈ add, pyListContains acc c = false)
      ∧ List.Pairwise (fun a b => pyEq a b = false) add := by
  induction results with
  | nil =>
    intro acc _
    exact ⟨[], by simp [collectFromResults], by simp, by simp, by simp, by simp, by simp⟩
  | cons r rest ih =>
    intro acc h
    have hr : ∀ c ∈ r.citations, c.isDict = true := h r (List.mem_cons_self r rest)
    have hrest : ∀ x ∈ rest, ∀ c ∈ x.citations, c.isDict = true :=
      fun x hx => h x (List.mem_cons_of_mem _ hx)
    obtain ⟨add1, heq1, hsub1, helig1, hcomp1, hnew1, hpw1⟩ :=
      collectCitations_invariant r.citations acc hr
    obtain ⟨add2, heq2, hsub2, helig2, hcomp2, hnew2, hpw2⟩ := ih (acc ++ add1) hrest
    refine ⟨add1 ++ add2, ?_, ?_, ?_, ?_, ?_, ?_⟩
    · simp [collectFromResults, bind, Except.bind, heq1, heq2, List.append_assoc]
    · simpa [List.flatMap_cons] using hsub1.append hsub2
    · intro c hc
      rcases List.mem_append.mp hc with h1 | h2
      · exact helig1 c h1
      · exact helig2 c h2
    · intro c hc hel
      rw [List.flatMap_cons] at hc
      rcases List.mem_append.mp hc with h1 | h2
      · obtain ⟨a, ha, hor⟩ := hcomp1 c h1 hel
        refine ⟨a, ?_, hor⟩
        rw [← List.append_assoc]
        exact List.mem_append_left _ ha
      · obtain ⟨a, ha, hor⟩ := hcomp2 c h2 hel
        refine ⟨a, ?_, hor⟩
        rwa [← List.append_assoc]
    · intro c hc
      rcases List.mem_append.mp hc with h1 | h2
      · exact hnew1 c h1
      · have hb := hnew2 c h2
        rw [pyListContains_append] at hb
        exact (Bool.or_eq_false_iff.mp hb).1
    · refine List.pairwise_append.mpr ⟨hpw1, hpw2, ?_⟩
      intro a ha b hb
      have hb2 := hnew2 b hb
      rw [pyListContains_append] at hb2
      have h2 := (Bool.or_eq_false_iff.mp hb2).2
      rw [pyListContains, List.any_eq_false] at h2
      simpa using h2 a ha

/-- Claim C6 (corrected): the run-level combined citation list keeps
first-seen order (it is a sublist of the citation stream across all
steps), excludes every citation whose `url` is missing or not truthy,
contains no two entries that are structurally equal as whole mappings
(Python `==`), and represents every eligible citation of the stream.
Dedup is by FULL structural equality, not by `url`+`title`: two citations
with identical `url` and `title` but different offsets are both kept (see
the counterexample). -/
theorem collect_citations_dedup (plan : ResearchPlan) (results : List SearchResult)
    (h : results.all (fun r => r.citations.all PyVal.isDict) = true) :
    ∃ ad, collect_all_data plan results = .ok ad
      ∧ ad.query = plan.query ∧ ad.reasoning = plan.reasoning
      ∧ List.Sublist ad.citations (results.flatMap SearchResult.citations)
      ∧ List.Pairwise (fun a b => pyEq a b = false) ad.citations
      ∧ (∀ c ∈ ad.citations, specEligible c = true)
      ∧ (∀ c ∈ results.flatMap SearchResult.citations, specEligible c = true →
           ∃ a ∈ ad.citations, (a = c ∨ pyEq a c = true)) := by
  have h2 : ∀ r ∈ results, ∀ c ∈ r.citations, c.isDict = true := by
    simpa [List.all_eq_true] using h
  obtain ⟨add, heq, hsub, helig, hcomp, hnew, hpw⟩ :=
    collectFromResults_invariant results [] h2
  refine ⟨⟨plan.query, plan.reasoning,
      results.map (fun r => ⟨r.step_number, r.step_instruction, r.search_query, r.summary⟩),
      add⟩, ?_, rfl, rfl, hsub, hpw, helig, ?_⟩
  · simp only [collect_all_data, bind, Except.bind, heq, List.nil_append, pure, Except.pure]
  · intro c hc hel
    obtain ⟨a, ha, hor⟩ := hcomp c hc hel
    exact ⟨a, by simpa using ha, hor⟩

theorem str_data_append (a b : String) : (a ++ b).data = a.data ++ b.data := rfl

theorem citationLines_ok (l : List PyVal) (h : ∀ c ∈ l, c.isDict = true) :
    ∃ s, citationLines l = .ok s := by
  induction l with
  | nil => exact ⟨"", rfl⟩
  | cons c rest ih =>
    obtain ⟨s2, hs2⟩ := ih (fun x hx => h x (List.mem_cons_of_mem _ hx))
    have hc : c.isDict = true := h c (List.mem_cons_self _ _)
    cases c with
    | dict d =>
      exact ⟨"- " ++ ((lookup? d "title").getD (.str "No title")).pyStr ++ ": "
          ++ ((lookup? d "url").getD (.str "No URL")).pyStr ++ "\n" ++ s2,
        by simp [citationLines, pyGet, bind, Except.bind, pure, Except.pure, hs2]⟩
    | none => simp [PyVal.isDict] at hc
    | bool x => simp [PyVal.isDict] at hc
    | int x => simp [PyVal.isDict] at hc
    | str x => simp [PyVal.isDict] at hc
    | list x => simp [PyVal.isDict] at hc

/-- Claim C9 (confirmed): report-context construction succeeds on every
plan and well-formed result sequence (citations are dicts, as the
extractor produces), the context contains the plan query and reasoning,
and with zero results it is exactly the query+reasoning header — no step
content and no `CITATIONS` section. -/
theorem report_context_total (plan : ResearchPlan) (results : List SearchResult)
    (h : results.all (fun r => r.citations.all PyVal.isDict) = true) :
    (∃ s, build_context plan results = .ok s
      ∧ (∃ l t, s.data = l ++ plan.query.data ++ t)
      ∧ (∃ l t, s.data = l ++ plan.reasoning.data ++ t))
    ∧ build_context plan [] = .ok (contextHeader plan.query plan.reasoning) := by
  have h2 : ∀ r ∈ results, ∀ c ∈ r.citations, c.isDict = true := by
    simpa [List.all_eq_true] using h
  constructor
  · obtain ⟨add, heq, hsub, helig, hcomp, hnew, hpw⟩ :=
      collectFromResults_invariant results [] h2
    have hdicts : ∀ c ∈ add, c.isDict = true := by
      intro c hc
      have hmem : c ∈ results.flatMap SearchResult.citations := hsub.subset hc
      obtain ⟨r, hrmem, hcr⟩ := List.mem_flatMap.mp hmem
      exact h2 r hrmem c hcr
    by_cases hemp : add.isEmpty
    · refine ⟨contextHeader plan.query plan.reasoning
          ++ stepBlocks (results.map (fun r =>
            ⟨r.step_number, r.step_instruction, r.search_query, r.summary⟩)), ?_, ?_, ?_⟩
      · simp only [build_context, collect_all_data, bind, Except.bind, heq, List.nil_append,
          pure, Except.pure, hemp, if_true]
      · exact ⟨"\n        RESEARCH QUERY: ".data,
          ("\n        \n        RESEARCH REASONING: " ++ plan.reasoning
            ++ "\n        \n        RESEARCH STEPS AND FINDINGS:\n        ").data
          ++ (stepBlocks (results.map (fun r =>
            ⟨r.step_number, r.step_instruction, r.search_query, r.summary⟩))).data,
          by simp [contextHeader, str_data_append, List.append_assoc]⟩
      · exact ⟨("\n        RESEARCH QUERY: " ++ plan.query
            ++ "\n        \n        RESEARCH REASONING: ").data,
          "\n        \n        RESEARCH STEPS AND FINDINGS:\n        ".data
          ++ (stepBlocks (results.map (fun r =>
            ⟨r.step_number, r.step_instruction, r.search_query, r.summary⟩))).data,
          by simp [contextHeader, str_data_append, List.append_assoc]⟩
    · obtain ⟨cl, hcl⟩ := citationLines_ok add hdicts
      refine ⟨contextHeader plan.query plan.reasoning
          ++ stepBlocks (results.map (fun r =>
            ⟨r.step_number, r.step_instruction, r.search_query, r.summary⟩))
          ++ "\nCITATIONS:\n" ++ cl, ?_, ?_, ?_⟩
      · simp only [build_context, collect_all_data, bind, Except.bind, heq, List.nil_append,
          pure, Except.pure, hemp, if_false, Bool.false_eq_true, hcl]
      · exact ⟨"\n        RESEARCH QUERY: ".data,
          ("\n        \n        RESEARCH REASONING: " ++ plan.reasoning
            ++ "\n        \n        RESEARCH STEPS AND FINDINGS:\n        ").data
          ++ (stepBlocks (results.map (fun r =>
            ⟨r.step_number, r.step_instruction, r.search_query, r.summary⟩))).data
          ++ "\nCITATIONS:\n".data ++ cl.data,
          by simp [contextHeader, str_data_append, List.append_assoc]⟩
      · exact ⟨("\n        RESEARCH QUERY: " ++ plan.query
            ++ "\n        \n        RESEARCH REASONING: ").data,
          "\n        \n        RESEARCH STEPS AND FINDINGS:\n        ".data
          ++ (stepBlocks (results.map (fun r =>
            ⟨r.step_number, r.step_instruction, r.search_query, r.summary⟩))).data
          ++ "\nCITATIONS:\n".data ++ cl.data,
          by simp [contextHeader, str_data_append, List.append_assoc]⟩
  · simp [build_context, collect_all_data, collectFromResults, bind, Except.bind,
      pure, Except.pure, stepBlocks, String.append_empty]


theorem str_prefix_truthy (p m : String) (h : p.length ≠ 0) :
    (PyVal.str (p ++ m)).truthy = true := by
  simp only [PyVal.truthy, bne_iff_ne, ne_eq]
  exact append_ne_empty p m h

theorem sfc_truthy (cs : List PyVal) :
    ∀ v, summaryFromContents cs = .ok (Option.some v) → v.truthy = true := by
  induction cs with
  | nil => intro v h; simp [summaryFromContents] at h
  | cons c rest ih =>
    intro v h
    cases c with
    | dict cd =>
      simp only [summaryFromContents] at h
      cases hty : pyEqStr ((lookup? cd "type").getD .none) "output_text" with
      | true =>
        rw [hty] at h
        simp only [if_true] at h
        cases ht : ((lookup? cd "text").getD (.str "")).truthy with
        | true => rw [ht] at h; simp at h; rw [← h]; exact ht
        | false => rw [ht] at h; simp at h; exact ih v h
      | false =>
        rw [hty] at h
        simp only [Bool.false_eq_true, if_false] at h
        exact ih v h
    | none => simp [summaryFromContents] at h
    | bool x => simp [summaryFromContents] at h
    | int x => simp [summaryFromContents] at h
    | str x => simp [summaryFromContents] at h
    | list x => simp [summaryFromContents] at h

theorem sfi_truthy (items : List PyVal) :
    ∀ v, summaryFromItems items = .ok (Option.some v) → v.truthy = true := by
  induction items with
  | nil => intro v h; simp [summaryFromItems] at h
  | cons it rest ih =>
    intro v h
    cases it with
    | dict idt =>
      simp only [summaryFromItems] at h
      cases hty : pyEqStr ((lookup? idt "type").getD .none) "message" with
      | true =>
        rw [hty] at h
        simp only [if_true] at h
        cases hit : pyIter ((lookup? idt "content").getD (.list [])) with
        | error e => rw [hit] at h; simp at h
        | ok contents =>
          rw [hit] at h
          have h2 : (match summaryFromContents contents with
              | Except.error e => (Except.error e : Except PyErr (Option PyVal))
              | Except.ok (Option.some w) => Except.ok (Option.some w)
              | Except.ok Option.none => summaryFromItems rest)
              = Except.ok (Option.some v) := h
          cases hsfc : summaryFromContents contents with
          | error e =>
            rw [hsfc] at h2
            exact Except.noConfusion h2
          | ok o =>
            rw [hsfc] at h2
            cases o with
            | some w =>
              have h3 : Option.some w = Option.some v := by injection h2
              have h4 : w = v := by injection h3
              rw [← h4]
              exact sfc_truthy contents w hsfc
            | none => exact ih v h2
      | false =>
        rw [hty] at h
        simp only [Bool.false_eq_true, if_false] at h
        exact ih v h
    | none => simp [summaryFromItems] at h
    | bool x => simp [summaryFromItems] at h
    | int x => simp [summaryFromItems] at h
    | str x => simp [summaryFromItems] at h
    | list x => simp [summaryFromItems] at h

theorem anyKey_false_lookup (d : List (String × PyVal)) (k : String)
    (h : d.any (fun kv => kv.1 == k) = false) : lookup? d k = Option.none := by
  rw [anyKey_isSome] at h
  exact Option.not_isSome_iff_eq_none.mp (by simp [h])

theorem anyKey_true_lookup (d : List (String × PyVal)) (k : String)
    (h : d.any (fun kv => kv.1 == k) = true) : ∃ u, lookup? d k = Option.some u := by
  rw [anyKey_isSome] at h
  exact Option.isSome_iff_exists.mp h

theorem fallbacks_spec (d : List (String × PyVal)) :
    summaryFallbacks (.dict d) = .ok (specFallbacks d) := by
  simp only [summaryFallbacks, specFallbacks, pyContains, bind, Except.bind]
  cases h1 : d.any (fun kv => kv.1 == "output_text") with
  | true =>
    obtain ⟨u, hu⟩ := anyKey_true_lookup d _ h1
    simp [pySubscript, hu]
  | false =>
    have h1n := anyKey_false_lookup d _ h1
    simp only [Bool.false_eq_true, if_false, h1n]
    cases h2 : d.any (fun kv => kv.1 == "text") with
    | true =>
      obtain ⟨u, hu⟩ := anyKey_true_lookup d _ h2
      simp [pySubscript, hu]
    | false =>
      have h2n := anyKey_false_lookup d _ h2
      simp only [Bool.false_eq_true, if_false, h2n]
      cases h3 : d.any (fun kv => kv.1 == "error") with
      | true =>
        obtain ⟨ev, hev⟩ := anyKey_true_lookup d _ h3
        simp only [if_true, pyGet, hev, Option.getD, bind, Except.bind]
        cases h4 : d.any (fun kv => kv.1 == "error_message") with
        | true =>
          obtain ⟨em, hem⟩ := anyKey_true_lookup d _ h4
          simp [pyGet, hem, pure, Except.pure, String.append_assoc]
        | false =>
          have h4n := anyKey_false_lookup d _ h4
          simp [h4n, String.append_empty, pure, Except.pure]
      | false =>
        have h3n := anyKey_false_lookup d _ h3
        simp [h3n, pyGet, pure, Except.pure]

theorem fallbacks_ok_cases (response : PyVal) (v : PyVal)
    (h : summaryFallbacks response = .ok v) :
    v.truthy = true
    ∨ (∃ d, response = .dict d
        ∧ (lookup? d "output_text" = Option.some v
           ∨ ((lookup? d "output_text").isSome = false
              ∧ lookup? d "text" = Option.some v))) := by
  cases response with
  | dict d =>
    rw [fallbacks_spec d] at h
    have hv : specFallbacks d = v := by injection h
    rcases ho : lookup? d "output_text" with _ | u
    · rcases ht : lookup? d "text" with _ | u2
      · left
        rw [← hv]
        simp only [specFallbacks, ho, ht]
        rcases he : lookup? d "error" with _ | ev
        · exact str_prefix_truthy _ _ (append_length_ne _ _ (by decide))
        · exact str_prefix_truthy _ _ (append_length_ne _ _ (by decide))
      · right
        refine ⟨d, rfl, Or.inr ⟨by simp [ho], ?_⟩⟩
        rw [← hv]
        simp [specFallbacks, ho, ht]
    · right
      refine ⟨d, rfl, Or.inl ?_⟩
      rw [← hv]
      simp [specFallbacks, ho]
  | none =>
    have h2 : (Except.error (⟨"TypeError: argument of type is not iterable"⟩ : PyErr)
        : Except PyErr PyVal) = Except.ok v := h
    exact Except.noConfusion h2
  | bool b =>
    have h2 : (Except.error (⟨"TypeError: argument of type is not iterable"⟩ : PyErr)
        : Except PyErr PyVal) = Except.ok v := h
    exact Except.noConfusion h2
  | int n =>
    have h2 : (Except.error (⟨"TypeError: argument of type is not iterable"⟩ : PyErr)
        : Except PyErr PyVal) = Except.ok v := h
    exact Except.noConfusion h2
  | str s =>
    simp only [summaryFallbacks, pyContains, bind, Except.bind] at h
    split at h
    · simp [pySubscript] at h
    · split at h
      · simp [pySubscript] at h
      · split at h
        · simp [pyGet, bind, Except.bind] at h
        · simp [pyGet, bind, Except.bind] at h
  | list l =>
    simp only [summaryFallbacks, pyContains, bind, Except.bind] at h
    split at h
    · simp [pySubscript] at h
    · split at h
      · simp [pySubscript] at h
      · split at h
        · simp [pyGet, bind, Except.bind] at h
        · simp [pyGet, bind, Except.bind] at h

theorem sfc_spec (cs : List PyVal) (hw : cs.all wfContent = true) :
    summaryFromContents cs = .ok (cs.findSome? specContentText) := by
  induction cs with
  | nil => rfl
  | cons c rest ih =>
    simp only [List.all_cons, Bool.and_eq_true] at hw
    obtain ⟨hc, hrest⟩ := hw
    cases c with
    | dict cd =>
      simp only [summaryFromContents, List.findSome?_cons, specContentText]
      cases hty : pyEqStr ((lookup? cd "type").getD .none) "output_text" with
      | true =>
        simp only [if_true]
        cases ht : ((lookup? cd "text").getD (.str "")).truthy with
        | true => simp [ht]
        | false => simp [ht, ih hrest]
      | false => simp [ih hrest]
    | none => simp [wfContent] at hc
    | bool x => simp [wfContent] at hc
    | int x => simp [wfContent] at hc
    | str x => simp [wfContent] at hc
    | list x => simp [wfContent] at hc

theorem sfi_spec (items : List PyVal) (hw : items.all wfItem = true) :
    summaryFromItems items = .ok (specStrategy1 items) := by
  induction items with
  | nil => rfl
  | cons it rest ih =>
    simp only [List.all_cons, Bool.and_eq_true] at hw
    obtain ⟨hi, hrest⟩ := hw
    cases it with
    | dict idt =>
      simp only [summaryFromItems, specStrategy1, List.findSome?_cons, specItemText]
      cases hty : pyEqStr ((lookup? idt "type").getD .none) "message" with
      | true =>
        simp only [if_true]
        simp only [wfItem, hty, if_true] at hi
        rcases hgd : (lookup? idt "content").getD (.list []) with _ | b | n | s | cs | dd
        · rw [hgd] at hi; simp at hi
        · rw [hgd] at hi; simp at hi
        · rw [hgd] at hi; simp at hi
        · rw [hgd] at hi; simp at hi
        · rw [hgd] at hi
          simp only [pyIter]
          rw [sfc_spec cs (by exact hi)]
          cases hfs : cs.findSome? specContentText with
          | some w => simp [hfs]
          | none =>
            simp only [hfs]
            simpa [specStrategy1] using ih hrest
        · rw [hgd] at hi; simp at hi
      | false =>
        simp only [Bool.false_eq_true, if_false]
        simpa [specStrategy1] using ih hrest
    | none => simp [wfItem] at hi
    | bool x => simp [wfItem] at hi
    | int x => simp [wfItem] at hi
    | str x => simp [wfItem] at hi
    | list x => simp [wfItem] at hi

/-- Claim C1 (corrected): on well-formed payloads, summary extraction is
exactly the five-strategy cascade `specSummary`, tried in strict priority
order: the `output_items` message/output_text walk wins over everything
(in particular over a top-level `output_text`); but at strategies 2 and 3
the mere PRESENCE of the `output_text` (resp. `text`) key short-circuits
with its stored value verbatim — even when that value is empty — rather
than requiring non-empty text (see the counterexample). -/
theorem extract_summary_cascade (d : List (String × PyVal))
    (h : wfResponse (.dict d) = true) :
    extract_summary (.dict d) = specSummary (.dict d) := by
  rcases hoi : lookup? d "output_items" with _ | oi
  · have hany : d.any (fun kv => kv.1 == "output_items") = false := by
      rw [anyKey_isSome, hoi]; rfl
    have hcore : extractSummaryCore (.dict d) = summaryFallbacks (.dict d) := by
      simp [extractSummaryCore, pyContains, bind, Except.bind, hany, pure, Except.pure]
    simp only [extract_summary, hcore, fallbacks_spec d]
    simp [specSummary, hoi, specStrategy1]
  · simp only [wfResponse, hoi] at h
    cases oi with
    | list items =>
      have hany : d.any (fun kv => kv.1 == "output_items") = true := by
        rw [anyKey_isSome, hoi]; rfl
      have hcore : extractSummaryCore (.dict d)
          = (match specStrategy1 items with
             | Option.some w => Except.ok w
             | Option.none => summaryFallbacks (.dict d)) := by
        simp only [extractSummaryCore, pyContains, bind, Except.bind, hany, if_true,
          pyGet, hoi, Option.getD, pyIter, pure, Except.pure]
        rw [sfi_spec items (by exact h)]
      cases hfs : specStrategy1 items with
      | some w =>
        rw [hfs] at hcore
        simp only [extract_summary, hcore]
        simp [specSummary, hoi, hfs]
      | none =>
        rw [hfs] at hcore
        simp only [extract_summary, hcore, fallbacks_spec d]
        simp [specSummary, hoi, hfs]
    | none => simp at h
    | bool b => simp at h
    | int n => simp at h
    | str s => simp at h
    | dict dd => simp at h

theorem core_ok_cases (response : PyVal) (v : PyVal)
    (h : extractSummaryCore response = .ok v) :
    v.truthy = true
    ∨ (∃ d, response = .dict d
        ∧ (lookup? d "output_text" = Option.some v
           ∨ ((lookup? d "output_text").isSome = false
              ∧ lookup? d "text" = Option.some v))) := by
  cases response with
  | dict d =>
    cases hany : d.any (fun kv => kv.1 == "output_items") with
    | false =>
      have hcore : extractSummaryCore (.dict d) = summaryFallbacks (.dict d) := by
        simp [extractSummaryCore, pyContains, bind, Except.bind, hany, pure, Except.pure]
      rw [hcore] at h
      exact fallbacks_ok_cases _ v h
    | true =>
      have hcore : extractSummaryCore (.dict d)
          = Except.bind (pyIter ((lookup? d "output_items").getD (.list [])))
              (fun items => Except.bind (summaryFromItems items)
                (fun fromItems => match fromItems with
                  | Option.some w => Except.ok w
                  | Option.none => summaryFallbacks (.dict d))) := by
        simp only [extractSummaryCore, pyContains, bind, Except.bind, hany, if_true,
          pyGet, pure, Except.pure]
      rw [hcore] at h
      cases hit : pyIter ((lookup? d "output_items").getD (.list [])) with
      | error e =>
        rw [hit] at h
        exact Except.noConfusion h
      | ok items =>
        rw [hit] at h
        have h4 : Except.bind (summaryFromItems items)
            (fun fromItems => match fromItems with
              | Option.some w => Except.ok w
              | Option.none => summaryFallbacks (.dict d)) = Except.ok v := h
        cases hsfi : summaryFromItems items with
        | error e =>
          rw [hsfi] at h4
          have h5 : (Except.error e : Except PyErr PyVal) = Except.ok v := h4
          exact Except.noConfusion h5
        | ok o =>
          rw [hsfi] at h4
          cases o with
          | some w =>
            have hwv : w = v := by
              have h3 : Except.ok (ε := PyErr) w = Except.ok v := h4
              injection h3
            left
            rw [← hwv]
            exact sfi_truthy items w hsfi
          | none =>
            have h3 : summaryFallbacks (.dict d) = Except.ok v := h4
            exact fallbacks_ok_cases _ v h3
  | none =>
    have h2 : (Except.error (⟨"TypeError: argument of type is not iterable"⟩ : PyErr)
        : Except PyErr PyVal) = Except.ok v := h
    exact Except.noConfusion h2
  | bool b =>
    have h2 : (Except.error (⟨"TypeError: argument of type is not iterable"⟩ : PyErr)
        : Except PyErr PyVal) = Except.ok v := h
    exact Except.noConfusion h2
  | int n =>
    have h2 : (Except.error (⟨"TypeError: argument of type is not iterable"⟩ : PyErr)
        : Except PyErr PyVal) = Except.ok v := h
    exact Except.noConfusion h2
  | str s =>
    have h2 : (if listHasRun "output_items".data s.data
        then (Except.error (⟨"AttributeError: value has no attribute get (key output_items)"⟩
          : PyErr) : Except PyErr PyVal)
        else summaryFallbacks (.str s)) = Except.ok v := h
    cases hc : listHasRun "output_items".data s.data with
    | true =>
      rw [hc] at h2
      simp only [if_true] at h2
      exact Except.noConfusion h2
    | false =>
      rw [hc] at h2
      simp only [Bool.false_eq_true, if_false] at h2
      exact fallbacks_ok_cases _ v h2
  | list l =>
    have h2 : (if l.any (fun x => pyEqStr x "output_items")
        then (Except.error (⟨"AttributeError: value has no attribute get (key output_items)"⟩
          : PyErr) : Except PyErr PyVal)
        else summaryFallbacks (.list l)) = Except.ok v := h
    cases hc : l.any (fun x => pyEqStr x "output_items") with
    | true =>
      rw [hc] at h2
      simp only [if_true] at h2
      exact Except.noConfusion h2
    | false =>
      rw [hc] at h2
      simp only [Bool.false_eq_true, if_false] at h2
      exact fallbacks_ok_cases _ v h2

/-- Claim C2 (corrected): summary extraction is total — a Lean function;
every caught fault degrades to the non-empty generated placeholder — and
its result is always truthy (non-empty) EXCEPT when it is the verbatim
value of a consulted top-level `output_text` or `text` entry, which is
returned even when empty or of a falsy non-string shape (see the
counterexample). -/
theorem extract_summary_never_raises (response : PyVal) :
    (extract_summary response).truthy = true
    ∨ (∃ d, response = .dict d
        ∧ (lookup? d "output_text" = Option.some (extract_summary response)
           ∨ ((lookup? d "output_text").isSome = false
              ∧ lookup? d "text" = Option.some (extract_summary response)))) := by
  cases hcore : extractSummaryCore response with
  | error e =>
    left
    simp only [extract_summary, hcore]
    exact str_prefix_truthy _ _ (by decide)
  | ok v =>
    have hv : extract_summary response = v := by simp [extract_summary, hcore]
    rw [hv]
    exact core_ok_cases response v hcore

/-- Claim C1, witness: the cascade equality applied to a payload carrying
both a valid `output_items` message text and a top-level `output_text` —
the walk's text wins. -/
theorem extract_summary_cascade_witness :
    extract_summary (.dict [("output_items", .list [exMsgItem]), ("output_text", .str "top")])
      = specSummary (.dict [("output_items", .list [exMsgItem]), ("output_text", .str "top")])
    ∧ specSummary (.dict [("output_items", .list [exMsgItem]), ("output_text", .str "top")])
      = .str "from items" :=
  ⟨extract_summary_cascade [("output_items", .list [exMsgItem]), ("output_text", .str "top")] rfl,
   rfl⟩

/-- Claim C6, witness: the invariant applied to the concrete run with
`cit1` and `cit2`. -/
theorem collect_citations_dedup_witness :
    ∃ ad, collect_all_data exPlan [exRes] = .ok ad
      ∧ ad.query = exPlan.query ∧ ad.reasoning = exPlan.reasoning
      ∧ List.Sublist ad.citations ([exRes].flatMap SearchResult.citations)
      ∧ List.Pairwise (fun a b => pyEq a b = false) ad.citations
      ∧ (∀ c ∈ ad.citations, specEligible c = true)
      ∧ (∀ c ∈ [exRes].flatMap SearchResult.citations, specEligible c = true →
           ∃ a ∈ ad.citations, (a = c ∨ pyEq a c = true)) :=
  collect_citations_dedup exPlan [exRes] rfl

/-- Claim C9, witness: the theorem applied to the concrete plan and one
concrete result. -/
theorem report_context_total_witness :
    (∃ s, build_context exPlan [exRes] = .ok s
      ∧ (∃ l t, s.data = l ++ exPlan.query.data ++ t)
      ∧ (∃ l t, s.data = l ++ exPlan.reasoning.data ++ t))
    ∧ build_context exPlan [] = .ok (contextHeader exPlan.query exPlan.reasoning) :=
  report_context_total exPlan [exRes] rfl

end DRA
